import Mathlib

/-!
Verification development for the `confgen` tool
(`internal/pkg/buildcfg/confgen/gen.go`) of the apptainer repository.

The file shallowly embeds, in order:
* the Go standard-library string and `path/filepath` helpers the tool uses,
  with Unix (`/`-separated, no volume names) semantics;
* the runtime functions the tool emits into the generated module
  (`getPrefix`, `isSuidInstall`, `relocatePath`), modelled as pure functions
  over an explicit runtime environment (result of `os.Executable`, result of
  `os.Stat`); fatal termination (`sylog.Fatalf`) is modelled as `Except.error`;
* the generator itself (`parseLine`, `Define.WriteLine`, and the scanning /
  rendering pipeline of `main`), with generation-time process outcomes
  modelled explicitly.

Strings are treated at the character level; the inputs concerned are ASCII,
where Go's byte indexing and character indexing coincide.
-/

deriving instance DecidableEq for Except

namespace Confgen

/-! ## Go standard-library string primitives (Unix semantics) -/

/-- Whitespace characters recognized by `unicode.IsSpace` (ASCII range),
used by `strings.Fields`. -/
def isSpaceChar (c : Char) : Bool :=
  c = ' ' || c = '\t' || c = '\n' || c = '\x0b' || c = '\x0c' || c = '\r'

/-- Accumulating worker for `strings.Fields`: `cur` holds the current token
reversed. -/
def fieldsAux : List Char → List Char → List String
  | [], cur => if cur = [] then [] else [String.mk cur.reverse]
  | c :: rest, cur =>
    if isSpaceChar c then
      if cur = [] then fieldsAux rest []
      else String.mk cur.reverse :: fieldsAux rest []
    else fieldsAux rest (c :: cur)

/-- Go `strings.Fields`: split around runs of whitespace, keeping only
non-empty tokens. -/
def goFields (s : String) : List String := fieldsAux s.data []

/-- Is the first list a prefix of the second? (Char-level.) -/
def listIsPrefixOf : List Char → List Char → Bool
  | [], _ => true
  | _ :: _, [] => false
  | a :: as, b :: bs => a = b && listIsPrefixOf as bs

/-- Go `strings.HasPrefix s pre`. -/
def hasPrefix (s pre : String) : Bool := listIsPrefixOf pre.data s.data

/-- Char-level substring containment worker. -/
def listContains (pat : List Char) : List Char → Bool
  | [] => pat.isEmpty
  | c :: rest => listIsPrefixOf pat (c :: rest) || listContains pat rest

/-- Go `strings.Contains s pat`. -/
def containsSub (s pat : String) : Bool := listContains pat.data s.data

/-! ## Go `path/filepath` primitives (Unix semantics) -/

/-- Split a character list at every `/`, keeping empty segments
(like `strings.Split` on `"/"`). `cur` holds the current segment reversed. -/
def splitSlashAux : List Char → List Char → List String
  | [], cur => [String.mk cur.reverse]
  | c :: rest, cur =>
    if c = '/' then String.mk cur.reverse :: splitSlashAux rest []
    else splitSlashAux rest (c :: cur)

/-- All `/`-separated segments of a string, empties included. -/
def strSegs (s : String) : List String := splitSlashAux s.data []

/-- Worker of `filepath.Clean`: process segments left to right; `acc` holds
the output segments reversed.  Empty and `"."` segments are dropped; `".."`
pops a previous segment when possible, is dropped at the root of a rooted
path, and is kept for a relative path that cannot pop. -/
def cleanElems (rooted : Bool) : List String → List String → List String
  | [], acc => acc.reverse
  | p :: rest, acc =>
    if p = "" ∨ p = "." then cleanElems rooted rest acc
    else if p = ".." then
      match acc with
      | [] => if rooted then cleanElems rooted rest [] else cleanElems rooted rest [".."]
      | a :: acc2 =>
        if a = ".." then cleanElems rooted rest (".." :: a :: acc2)
        else cleanElems rooted rest acc2
    else cleanElems rooted rest (p :: acc)

/-- Join segments with `/` (no leading separator). -/
def joinSegs : List String → String
  | [] => ""
  | [p] => p
  | p :: q :: rest => p ++ "/" ++ joinSegs (q :: rest)

/-- Go `filepath.Clean` (Unix). -/
def goClean (path : String) : String :=
  if path = "" then "." else
  let rooted := hasPrefix path "/"
  let parts := cleanElems rooted (strSegs path) []
  if rooted then
    if parts = [] then "/" else "/" ++ joinSegs parts
  else
    if parts = [] then "." else joinSegs parts

/-- Go `filepath.Dir` (Unix): everything up to and including the final `/`,
cleaned; `"."` when there is no separator. -/
def goDir (path : String) : String :=
  goClean (String.mk ((path.data.reverse.dropWhile (fun c => c ≠ '/')).reverse))

/-- Go `filepath.Base` (Unix). -/
def goBase (path : String) : String :=
  if path = "" then "." else
  let stripped := path.data.reverse.dropWhile (fun c => c = '/')
  if stripped = [] then "/" else
  String.mk ((stripped.takeWhile (fun c => c ≠ '/')).reverse)

/-- Segments of an already-cleaned path for `filepath.Rel`'s element walk:
the root and the empty base contribute no segments. -/
def segsOfCleaned (s : String) : List String :=
  if s = "" ∨ s = "/" then []
  else if hasPrefix s "/" then strSegs (String.mk s.data.tail)
  else strSegs s

/-- Drop the longest common leading run of equal segments from two lists,
returning both remainders. -/
def stripCommon : List String → List String → List String × List String
  | a :: as, b :: bs =>
    if a = b then stripCommon as bs else (a :: as, b :: bs)
  | as, bs => (as, bs)

/-- Go `filepath.Rel` (Unix): make `targpath` relative to `basepath`.
Errors when one path is rooted and the other is not, or when the base's
first segment beyond the common prefix is `".."` (the result would then
depend on the working directory). -/
def goRel (basepath targpath : String) : Except String String :=
  let base0 := goClean basepath
  let targ := goClean targpath
  if targ = base0 then .ok "." else
  let base := if base0 = "." then "" else base0
  if (hasPrefix base "/") ≠ (hasPrefix targ "/") then
    .error ("Rel: can't make " ++ targpath ++ " relative to " ++ basepath)
  else
    let rests := stripCommon (segsOfCleaned base) (segsOfCleaned targ)
    if rests.1.headD "" = ".." then
      .error ("Rel: can't make " ++ targpath ++ " relative to " ++ basepath)
    else
      .ok (joinSegs (List.replicate rests.1.length ".." ++ rests.2))

/-- Go `filepath.Join a b` (Unix): non-empty components joined by `/`,
then cleaned; empty when both components are empty. -/
def goJoin (a b : String) : String :=
  if a = "" then (if b = "" then "" else goClean b)
  else if b = "" then goClean a
  else goClean (a ++ "/" ++ b)

/-! ## The generated runtime (the template in `confgenTemplate`)

The generated module is parameterized by the literal build-time install
directory (the template's substituted value, written `pfx` below, since the
Go local's lower-case name is a Lean keyword).  Its interaction with the
operating system is captured by an explicit environment: the result of
`os.Executable` (`none` models an error) and, for each path, whether
`os.Stat` succeeds.  The `sync.Once` guards only cache the first
computation, so the sequential value semantics is that of a pure function
of the environment. -/

structure RuntimeEnv where
  execResult : Option String
  statOk : String → Bool

/-- `getPrefix` of the generated runtime: discover the installation
directory from the running executable's location, falling back to the
build-time value when discovery fails or the binary name is unknown. -/
def getPrefix (pfx : String) (env : RuntimeEnv) : String :=
  match env.execResult with
  | none => pfx
  | some executablePath =>
    let bin := goDir executablePath
    let base := goBase executablePath
    if base = "apptainer" then goDir bin
    else if base = "starter" ∨ base = "starter-suid" then goDir (goDir (goDir bin))
    else pfx

/-- `isSuidInstall` of the generated runtime: `1` exactly when `os.Stat`
succeeds on `<prefix>/libexec/apptainer/bin/starter-suid`. -/
def isSuidInstall (pfx : String) (env : RuntimeEnv) : Nat :=
  if env.statOk (getPrefix pfx env ++ "/libexec/apptainer/bin/starter-suid") then 1 else 0

/-- Body of `relocatePath` past the domain tests, with `rootPfx` recording
whether the path matched one of the two special roots rather than the
build-time install directory.  `Except.error` models `sylog.Fatalf`
(fatal process termination, no value returned). -/
def relocateFrom (pfx : String) (env : RuntimeEnv) (original : String) (rootPfx : Bool) :
    Except String String :=
  let p := getPrefix pfx env
  if p = pfx then .ok original
  else if isSuidInstall pfx env = 1 then .error "Relocation not allowed with starter-suid"
  else
    match (if rootPfx then goRel "/" original else goRel pfx original) with
    | .error e => .error e
    | .ok relativePath => .ok (goJoin p relativePath)

/-- `relocatePath` of the generated runtime. -/
def relocatePath (pfx : String) (env : RuntimeEnv) (original : String) :
    Except String String :=
  if pfx = "" ∨ pfx = "/" then .ok original
  else if hasPrefix original pfx then relocateFrom pfx env original false
  else if hasPrefix original "/etc/apptainer" || hasPrefix original "/var/apptainer" then
    relocateFrom pfx env original true
  else .ok original

/-! ## The generator (`parseLine`, `Define.WriteLine`, `main`) -/

structure Define where
  Words : List String
deriving DecidableEq

/-- `parseLine`: one input line split into whitespace-separated words. -/
def parseLine (s : String) : Define := ⟨goFields s⟩

/-- The value expression: value tokens accumulated with `" + "` separators,
exactly as the `s += " + " + w` loop of `Define.WriteLine` builds it. -/
def joinTokens (v : String) : List String → String
  | [] => v
  | w :: rest => joinTokens (v ++ " + " ++ w) rest

/-- The six relocatable names of the generator's `switch`. -/
def sixNames : List String :=
  ["BINDIR", "LIBEXECDIR", "SYSCONFDIR", "SESSIONDIR", "APPTAINER_CONFDIR", "PLUGIN_ROOTDIR"]

/-- `Define.WriteLine`: render one declaration of the generated module.
Only called on recognized entries, which have at least three words; the
catch-all branch is unreachable in the pipeline. -/
def Define.WriteLine (d : Define) : String :=
  match d.Words with
  | _ :: name :: v :: rest =>
    let s := joinTokens v rest
    if name ∈ sixNames then
      "var " ++ name ++ " = relocatePath(" ++ s ++ ")"
    else if name = "APPTAINER_SUID_INSTALL" then
      "var " ++ name ++ " = isSuidInstall()"
    else if containsSub s "APPTAINER_CONFDIR" then
      "var " ++ name ++ " = " ++ s
    else
      "const " ++ name ++ " = " ++ s
  | _ => ""

/-- The entry-recognition test of `main`'s scanning loop:
`len(d.Words) > 2 && d.Words[0] == "#define"`. -/
def isEntry (d : Define) : Prop :=
  2 < d.Words.length ∧ d.Words.headD "" = "#define"

instance (d : Define) : Decidable (isEntry d) := by unfold isEntry; infer_instance

/-- A recognized entry whose name is `PREFIX`. -/
def isPrefixEntry (d : Define) : Prop :=
  isEntry d ∧ d.Words.getD 1 "" = "PREFIX"

instance (d : Define) : Decidable (isPrefixEntry d) := by unfold isPrefixEntry; infer_instance

/-- A well-formed `PREFIX` entry: exactly marker, name, one value token. -/
def goodPrefix (d : Define) : Prop := isPrefixEntry d ∧ d.Words.length = 3

instance (d : Define) : Decidable (goodPrefix d) := by unfold goodPrefix; infer_instance

/-- A malformed `PREFIX` entry: recognized but with a word count other
than three. -/
def badPrefix (d : Define) : Prop := isPrefixEntry d ∧ d.Words.length ≠ 3

instance (d : Define) : Decidable (badPrefix d) := by unfold badPrefix; infer_instance

/-- The scanning loop of `main`: walk the input lines accumulating the
recognized entries (`header`) and the last `PREFIX` value token seen
(`pv`, initially `""`).  A malformed `PREFIX` entry is an immediate
`sylog.Fatalf`, modelled as `Except.error`. -/
def scanLines : List String → List Define → String → Except String (List Define × String)
  | [], header, pv => .ok (header, pv)
  | l :: rest, header, pv =>
    let d := parseLine l
    if isEntry d then
      if d.Words.getD 1 "" = "PREFIX" then
        if d.Words.length ≠ 3 then .error "Expected PREFIX to contain 3 elements"
        else scanLines rest (header ++ [d]) (d.Words.getD 2 "")
      else scanLines rest (header ++ [d]) pv
    else scanLines rest header pv

/-- The synthetic entry injected for a non-empty `GO_BUILD_TAGS`
environment value: `fmt.Sprintf("`%s`", goBuildTags)`. -/
def tagDefine (tags : String) : Define :=
  ⟨["#define", "GO_BUILD_TAGS", "`" ++ tags ++ "`"]⟩

/-- The extraction pipeline of `main`: scan all lines, fail when no
`PREFIX` value was found, then append the synthetic build-tag entry when
the environment override is non-empty (`os.Getenv` yields `""` when the
variable is unset). -/
def runExtract (lines : List String) (tags : String) :
    Except String (List Define × String) :=
  match scanLines lines [] "" with
  | .error e => .error e
  | .ok (header, pv) =>
    if pv = "" then .error "Failed to find value of PREFIX"
    else .ok ((if tags ≠ "" then header ++ [tagDefine tags] else header), pv)

/-- The generation-time environment of `main`: whether `os.Create`
succeeds, the input lines when `os.ReadFile` succeeds (`none` models a
read error), whether `Template.Execute` succeeds, and the build-tag
override. -/
structure GenEnv where
  createOk : Bool
  inputLines : Option (List String)
  writeOk : Bool
  goBuildTags : String

/-- How a run of the generator process ends.  `printReturn` is
`fmt.Println(err); return` (main returns normally), `fatalExit` is
`sylog.Fatalf`, `panicked` is a Go runtime panic, and `success` carries
the stripped install directory together with the rendered declarations. -/
inductive Outcome where
  | fatalExit (msg : String)
  | printReturn (msg : String)
  | panicked (msg : String)
  | success (pfx : String) (decls : List String)
deriving DecidableEq

/-- The quote-stripping slice `prefix[1 : len(prefix)-1]` of `main`.  In Go
the slice panics unless `1 <= len(prefix)-1`, i.e. unless the token has at
least two characters; `none` models the panic.  (Go indexes bytes; on the
ASCII tokens concerned, bytes and characters coincide.) -/
def stripOuter (s : String) : Option String :=
  if 2 ≤ s.length then some (String.mk ((s.data.take (s.length - 1)).drop 1)) else none

/-- `main` of the generator, end to end. -/
def runMain (env : GenEnv) : Outcome :=
  if env.createOk = false then .printReturn "create error"
  else
    match env.inputLines with
    | none => .printReturn "read error"
    | some lines =>
      match runExtract lines env.goBuildTags with
      | .error e => .fatalExit e
      | .ok (header, pv) =>
        match stripOuter pv with
        | none => .panicked "slice bounds out of range"
        | some p =>
          if env.writeOk = false then .printReturn "template error"
          else .success p (header.map Define.WriteLine)

/-- Modelled from the spec: the process exit status of each outcome.
`sylog.Fatalf` lives in `pkg/sylog`, outside the sources at hand; per the
spec it terminates the process with a diagnostic and a non-zero status.  A
plain `return` from `main` exits with status `0`; a Go panic exits with
status `2`. -/
def exitCode : Outcome → Nat
  | .fatalExit _ => 255
  | .printReturn _ => 0
  | .panicked _ => 2
  | .success _ _ => 0

/-! ## Helper lemmas -/

theorem strAppend_assoc (a b c : String) : a ++ b ++ c = a ++ (b ++ c) :=
  String.ext (by simp)

/-- A rendered line starting with `"var "` does not start with `"const"`. -/
theorem var_not_const (x : String) : hasPrefix ("var " ++ x) "const" = false := rfl

/-- `joinTokens` agrees with the worker of `String.intercalate`. -/
theorem joinTokens_go (v : String) (rest : List String) :
    joinTokens v rest = String.intercalate.go v " + " rest := by
  induction rest generalizing v with
  | nil => rfl
  | cons w ws ih => simp only [joinTokens, String.intercalate.go, ih]

/-- The value expression built by `Define.WriteLine` is the value tokens
joined by `" + "`. -/
theorem joinTokens_intercalate (v : String) (rest : List String) :
    joinTokens v rest = String.intercalate " + " (v :: rest) := by
  rw [String.intercalate, joinTokens_go]

/-! ## Claim C1 -/

/-- C1 (counterexample): with build-time install directory `/usr`, an
executable at `/opt/bin/apptainer` (so the discovered directory is `/opt`,
different from `/usr`) and every stat succeeding (so suid detection
reports true), the relocation call on `/foo` — a path outside the
relocation domain — returns the path unchanged instead of terminating
fatally, contradicting the claim as stated. -/
theorem relocate_suid_gate_cex :
    getPrefix "/usr" ⟨some "/opt/bin/apptainer", fun _ => true⟩ = "/opt" ∧
    isSuidInstall "/usr" ⟨some "/opt/bin/apptainer", fun _ => true⟩ = 1 ∧
    relocatePath "/usr" ⟨some "/opt/bin/apptainer", fun _ => true⟩ "/foo" = .ok "/foo" :=
  ⟨by decide, by decide, by decide⟩

/-- C1 (amended): when the build-time install directory is neither empty
nor the root, the input path lies inside the relocation domain (it starts
with the build-time directory or with one of the two special roots), the
discovered installation directory differs from the build-time one, and
suid detection reports true, then the relocation call terminates the
process fatally and returns no path. -/
theorem relocate_suid_gate (pfx : String) (env : RuntimeEnv) (original : String)
    (hp1 : pfx ≠ "") (hp2 : pfx ≠ "/")
    (hdom : hasPrefix original pfx = true ∨
      hasPrefix original "/etc/apptainer" = true ∨ hasPrefix original "/var/apptainer" = true)
    (hne : getPrefix pfx env ≠ pfx)
    (hsuid : isSuidInstall pfx env = 1) :
    relocatePath pfx env original = .error "Relocation not allowed with starter-suid" := by
  have hcore : ∀ b, relocateFrom pfx env original b =
      .error "Relocation not allowed with starter-suid" := by
    intro b
    unfold relocateFrom
    rw [if_neg hne, if_pos hsuid]
  by_cases hi : hasPrefix original pfx
  · simp only [relocatePath, hi, if_true]
    rw [if_neg (by simp [hp1, hp2])]
    exact hcore false
  · have hor : (hasPrefix original "/etc/apptainer" || hasPrefix original "/var/apptainer") = true := by
      rcases hdom with h | h | h
      · exact absurd h hi
      · simp [h]
      · simp [h]
    simp only [relocatePath]
    rw [if_neg (by simp [hp1, hp2]), if_neg hi, if_pos hor]
    exact hcore true

/-- C1 (witness): concrete fatal relocation for a path inside the
build-time directory with a suid install present elsewhere. -/
theorem relocate_suid_gate_w :
    relocatePath "/usr" ⟨some "/opt/bin/apptainer", fun _ => true⟩ "/usr/bin" =
      .error "Relocation not allowed with starter-suid" :=
  relocate_suid_gate "/usr" ⟨some "/opt/bin/apptainer", fun _ => true⟩ "/usr/bin"
    (by decide) (by decide) (Or.inl (by decide)) (by decide) (by decide)

/-! ## Claim C2 -/

/-- C2 (counterexample): with the (relative) build-time directory `..`,
the conditions of the claim's final case hold for input `..foo` — suid
detection reports `0`, the discovered directory `/opt` differs from `..`,
and the input starts (character-wise) with `..` — yet the call terminates
fatally because the relative-path computation errors (the base's first
uncommon segment is `..`), instead of returning the join the claim
promises. -/
theorem relocatePath_spec_cex :
    isSuidInstall ".." ⟨some "/opt/bin/apptainer", fun _ => false⟩ = 0 ∧
    getPrefix ".." ⟨some "/opt/bin/apptainer", fun _ => false⟩ = "/opt" ∧
    hasPrefix "..foo" ".." = true ∧
    relocatePath ".." ⟨some "/opt/bin/apptainer", fun _ => false⟩ "..foo" =
      .error "Rel: can't make ..foo relative to .." :=
  ⟨by decide, by decide, by decide, by decide⟩

/-- C2 (amended): with suid detection reporting `0`, the relocation
function returns `original` unchanged when the build-time directory is
empty or `/`, when `original` starts with neither the build-time directory
nor `/etc/apptainer` nor `/var/apptainer`, or when the discovered
directory equals the build-time one; otherwise it returns the join of the
discovered directory with the path of `original` relative to `/` (in the
special-root case) or relative to the build-time directory, except that
when that relative-path computation fails — possible only for a relative
build-time directory whose first segment beyond its common prefix with the
path is `..` — the call terminates fatally with its error instead of
returning a path (`Except.map` propagates the error). -/
theorem relocatePath_spec (pfx : String) (env : RuntimeEnv) (original : String)
    (hsuid : isSuidInstall pfx env = 0) :
    ((pfx = "" ∨ pfx = "/") → relocatePath pfx env original = .ok original) ∧
    (hasPrefix original pfx = false → hasPrefix original "/etc/apptainer" = false →
      hasPrefix original "/var/apptainer" = false →
      relocatePath pfx env original = .ok original) ∧
    (getPrefix pfx env = pfx → relocatePath pfx env original = .ok original) ∧
    (pfx ≠ "" → pfx ≠ "/" → getPrefix pfx env ≠ pfx → hasPrefix original pfx = true →
      relocatePath pfx env original = (goRel pfx original).map (goJoin (getPrefix pfx env))) ∧
    (pfx ≠ "" → pfx ≠ "/" → getPrefix pfx env ≠ pfx → hasPrefix original pfx = false →
      (hasPrefix original "/etc/apptainer" = true ∨ hasPrefix original "/var/apptainer" = true) →
      relocatePath pfx env original = (goRel "/" original).map (goJoin (getPrefix pfx env))) := by
  have hfrom : getPrefix pfx env ≠ pfx → ∀ b, relocateFrom pfx env original b =
      (if b then goRel "/" original else goRel pfx original).map (goJoin (getPrefix pfx env)) := by
    intro hne b
    unfold relocateFrom
    rw [if_neg hne, if_neg (by simp [hsuid])]
    cases hr : (if b then goRel "/" original else goRel pfx original) with
    | error e => simp [hr, Except.map]
    | ok r => simp [hr, Except.map]
  have hfromEq : getPrefix pfx env = pfx → ∀ b, relocateFrom pfx env original b = .ok original := by
    intro he b
    unfold relocateFrom
    rw [if_pos he]
  refine ⟨?_, ?_, ?_, ?_, ?_⟩
  · intro h
    simp only [relocatePath]
    rw [if_pos h]
  · intro h1 h2 h3
    by_cases hz : pfx = "" ∨ pfx = "/"
    · simp only [relocatePath]; rw [if_pos hz]
    · simp only [relocatePath]
      rw [if_neg hz, if_neg (by simp [h1]), if_neg (by simp [h2, h3])]
  · intro he
    by_cases hz : pfx = "" ∨ pfx = "/"
    · simp only [relocatePath]; rw [if_pos hz]
    · by_cases hi : hasPrefix original pfx
      · simp only [relocatePath]
        rw [if_neg hz, if_pos hi, hfromEq he false]
      · by_cases hor : (hasPrefix original "/etc/apptainer" || hasPrefix original "/var/apptainer") = true
        · simp only [relocatePath]
          rw [if_neg hz, if_neg hi, if_pos hor, hfromEq he true]
        · simp only [relocatePath]
          rw [if_neg hz, if_neg hi, if_neg hor]
  · intro h1 h2 hne hi
    simp only [relocatePath]
    rw [if_neg (by simp [h1, h2]), if_pos hi, hfrom hne false]
    simp
  · intro h1 h2 hne hi hor
    simp only [relocatePath]
    rw [if_neg (by simp [h1, h2]), if_neg (by simp [hi]),
      if_pos (by rcases hor with h | h <;> simp [h]), hfrom hne true]
    simp

/-- C2 (witness): concrete relocation of `/usr/bin` with discovered
directory `/opt` yields `/opt/bin`. -/
theorem relocatePath_spec_w :
    relocatePath "/usr" ⟨some "/opt/bin/apptainer", fun _ => false⟩ "/usr/bin" = .ok "/opt/bin" := by
  have h := (relocatePath_spec "/usr" ⟨some "/opt/bin/apptainer", fun _ => false⟩ "/usr/bin"
      (by decide)).2.2.2.1 (by decide) (by decide) (by decide) (by decide)
  rw [h]
  decide

/-! ## Claim C3 -/

/-- C3 (confirmed): prefix discovery.  When determining the executable
fails, the build-time value is used.  When the base name is `apptainer`
(layout `PREFIX/bin/apptainer`) the discovered directory is the parent of
the executable's directory.  When the base name is `starter` or
`starter-suid` (layout `PREFIX/libexec/apptainer/bin/<helper>`) it is the
third parent of the executable's directory, i.e. `PREFIX` of that layout.
For any other base name the build-time value is used unchanged. -/
theorem getPrefix_spec (pfx : String) (env : RuntimeEnv) :
    (env.execResult = none → getPrefix pfx env = pfx) ∧
    (∀ p, env.execResult = some p →
      (goBase p = "apptainer" → getPrefix pfx env = goDir (goDir p)) ∧
      ((goBase p = "starter" ∨ goBase p = "starter-suid") →
        getPrefix pfx env = goDir (goDir (goDir (goDir p)))) ∧
      (goBase p ≠ "apptainer" → goBase p ≠ "starter" → goBase p ≠ "starter-suid" →
        getPrefix pfx env = pfx)) := by
  constructor
  · intro h
    simp [getPrefix, h]
  · intro p hp
    refine ⟨?_, ?_, ?_⟩
    · intro hb
      simp [getPrefix, hp, hb]
    · intro hb
      have hba : goBase p ≠ "apptainer" := by
        rcases hb with h | h <;> rw [h] <;> decide
      simp [getPrefix, hp, hba, hb]
    · intro h1 h2 h3
      simp [getPrefix, hp, h1, h2, h3]

/-- C3 (witness): a helper binary at `/opt/libexec/apptainer/bin/starter`
discovers the installation directory `/opt`. -/
theorem getPrefix_spec_w :
    getPrefix "/usr" ⟨some "/opt/libexec/apptainer/bin/starter", fun _ => false⟩ = "/opt" := by
  have h := ((getPrefix_spec "/usr" ⟨some "/opt/libexec/apptainer/bin/starter", fun _ => false⟩).2
    "/opt/libexec/apptainer/bin/starter" rfl).2.1 (Or.inl (by decide))
  rw [h]
  decide

/-! ## Claim C4 -/

/-- C4 (confirmed): an entry named by one of the six relocatable names is
rendered as a `var` declaration invoking `relocatePath` on the joined
value expression; an entry named `APPTAINER_SUID_INSTALL` is rendered as a
`var` declaration invoking `isSuidInstall()` with its value discarded; in
both cases the rendered line does not start with `const`. -/
theorem writeLine_recognized (m name v : String) (rest : List String) :
    (name ∈ sixNames →
      Define.WriteLine ⟨m :: name :: v :: rest⟩ =
        "var " ++ name ++ " = relocatePath(" ++ joinTokens v rest ++ ")") ∧
    (name = "APPTAINER_SUID_INSTALL" →
      Define.WriteLine ⟨m :: name :: v :: rest⟩ =
        "var " ++ name ++ " = isSuidInstall()") ∧
    ((name ∈ sixNames ∨ name = "APPTAINER_SUID_INSTALL") →
      hasPrefix (Define.WriteLine ⟨m :: name :: v :: rest⟩) "const" = false) := by
  have h6 : name ∈ sixNames →
      Define.WriteLine ⟨m :: name :: v :: rest⟩ =
        "var " ++ name ++ " = relocatePath(" ++ joinTokens v rest ++ ")" := by
    intro h
    simp [Define.WriteLine, h]
  have hs : name = "APPTAINER_SUID_INSTALL" →
      Define.WriteLine ⟨m :: name :: v :: rest⟩ = "var " ++ name ++ " = isSuidInstall()" := by
    intro h
    subst h
    simp [Define.WriteLine, show ("APPTAINER_SUID_INSTALL" : String) ∉ sixNames from by decide]
  refine ⟨h6, hs, ?_⟩
  rintro (h | h)
  · rw [h6 h, strAppend_assoc, strAppend_assoc, strAppend_assoc]
    exact var_not_const _
  · rw [hs h, strAppend_assoc]
    exact var_not_const _

/-- C4 (witness): concrete renderings for `BINDIR` and
`APPTAINER_SUID_INSTALL`. -/
theorem writeLine_recognized_w :
    Define.WriteLine ⟨["#define", "BINDIR", "\"/usr/bin\""]⟩ =
      "var BINDIR = relocatePath(\"/usr/bin\")" ∧
    Define.WriteLine ⟨["#define", "APPTAINER_SUID_INSTALL", "1"]⟩ =
      "var APPTAINER_SUID_INSTALL = isSuidInstall()" ∧
    hasPrefix (Define.WriteLine ⟨["#define", "BINDIR", "\"/usr/bin\""]⟩) "const" = false := by
  refine ⟨?_, ?_, ?_⟩
  · rw [(writeLine_recognized "#define" "BINDIR" "\"/usr/bin\"" []).1 (by decide)]
    decide
  · rw [(writeLine_recognized "#define" "APPTAINER_SUID_INSTALL" "1" []).2.1 rfl]
    decide
  · rw [(writeLine_recognized "#define" "BINDIR" "\"/usr/bin\"" []).1 (by decide)]
    decide

/-! ## Claim C5 -/

/-- C5 (confirmed): an entry whose name is outside the recognized set is
rendered with the value tokens joined by `" + "` as its right-hand side,
as a `var` declaration exactly when that text contains the substring
`APPTAINER_CONFDIR`, and as a `const` declaration otherwise. -/
theorem writeLine_default (m name v : String) (rest : List String)
    (h6 : name ∉ sixNames) (hs : name ≠ "APPTAINER_SUID_INSTALL") :
    Define.WriteLine ⟨m :: name :: v :: rest⟩ =
      (if containsSub (joinTokens v rest) "APPTAINER_CONFDIR" then "var " else "const ")
        ++ name ++ " = " ++ joinTokens v rest ∧
    joinTokens v rest = String.intercalate " + " (v :: rest) := by
  refine ⟨?_, joinTokens_intercalate v rest⟩
  by_cases hc : containsSub (joinTokens v rest) "APPTAINER_CONFDIR" = true
  · simp [Define.WriteLine, h6, hs, hc]
  · simp [Define.WriteLine, h6, hs, hc]

/-- C5 (witness): `FOO` with a value not mentioning `APPTAINER_CONFDIR` is
a constant; `DERIVED` with a value mentioning it is a variable. -/
theorem writeLine_default_w :
    Define.WriteLine ⟨["#define", "FOO", "\"/usr/local\""]⟩ = "const FOO = \"/usr/local\"" ∧
    Define.WriteLine ⟨["#define", "DERIVED", "APPTAINER_CONFDIR", "\"/d\""]⟩ =
      "var DERIVED = APPTAINER_CONFDIR + \"/d\"" := by
  constructor
  · rw [(writeLine_default "#define" "FOO" "\"/usr/local\"" [] (by decide) (by decide)).1]
    decide
  · rw [(writeLine_default "#define" "DERIVED" "APPTAINER_CONFDIR" ["\"/d\""]
      (by decide) (by decide)).1]
    decide

/-! ## Scan-loop lemmas -/

/-- A `String.mk` of a non-empty character list is not the empty string. -/
theorem mkString_ne_empty (cs : List Char) (h : cs ≠ []) : String.mk cs ≠ "" := by
  intro heq
  apply h
  have hd : (String.mk cs).data = ("" : String).data := by rw [heq]
  simpa using hd

/-- Every token emitted by the `strings.Fields` worker is non-empty. -/
theorem fieldsAux_mem_ne (cs : List Char) :
    ∀ (cur : List Char) t, t ∈ fieldsAux cs cur → t ≠ "" := by
  induction cs with
  | nil =>
    intro cur t ht
    simp only [fieldsAux] at ht
    by_cases hc : cur = []
    · rw [if_pos hc] at ht
      simp at ht
    · rw [if_neg hc] at ht
      simp only [List.mem_singleton] at ht
      subst ht
      exact mkString_ne_empty _ (by simpa using hc)
  | cons c rest ih =>
    intro cur t ht
    simp only [fieldsAux] at ht
    by_cases hsp : isSpaceChar c
    · rw [if_pos hsp] at ht
      by_cases hc : cur = []
      · rw [if_pos hc] at ht
        exact ih [] t ht
      · rw [if_neg hc] at ht
        rcases List.mem_cons.mp ht with rfl | ht2
        · exact mkString_ne_empty _ (by simpa using hc)
        · exact ih [] t ht2
    · rw [if_neg hsp] at ht
      exact ih (c :: cur) t ht

/-- Every token produced by `strings.Fields` is non-empty. -/
theorem goFields_mem_ne (s : String) : ∀ t ∈ goFields s, t ≠ "" :=
  fun t ht => fieldsAux_mem_ne s.data [] t ht

theorem getD_mem {l : List String} {n : Nat} (h : n < l.length) : l.getD n "" ∈ l := by
  rw [List.getD_eq_getElem?_getD, List.getElem?_eq_getElem h]
  simp only [Option.getD_some]
  exact List.getElem_mem h

/-- The entries accumulated by a successful scan are the starting
accumulator followed by the parse of every recognized line, in input
order. -/
theorem scanLines_ok_entries (lines : List String) :
    ∀ header pv es pv2, scanLines lines header pv = .ok (es, pv2) →
      es = header ++ (lines.filter (fun l => decide (isEntry (parseLine l)))).map parseLine := by
  induction lines with
  | nil =>
    intro header pv es pv2 h
    simp only [scanLines, Except.ok.injEq, Prod.mk.injEq] at h
    simp [h.1]
  | cons l rest ih =>
    intro header pv es pv2 h
    simp only [scanLines] at h
    by_cases he : isEntry (parseLine l)
    · rw [if_pos he] at h
      by_cases hp : (parseLine l).Words.getD 1 "" = "PREFIX"
      · rw [if_pos hp] at h
        by_cases h3 : (parseLine l).Words.length ≠ 3
        · rw [if_pos h3] at h
          exact absurd h (by simp)
        · rw [if_neg h3] at h
          have hes := ih _ _ _ _ h
          simp [List.filter_cons, he, hes]
      · rw [if_neg hp] at h
        have hes := ih _ _ _ _ h
        simp [List.filter_cons, he, hes]
    · rw [if_neg he] at h
      have hes := ih _ _ _ _ h
      simp [List.filter_cons, he, hes]

/-- A malformed `PREFIX` entry anywhere in the input makes the scan fail
with the fatal `PREFIX` diagnostic. -/
theorem scanLines_bad (lines : List String) :
    ∀ header pv, (∃ l ∈ lines, badPrefix (parseLine l)) →
      scanLines lines header pv = .error "Expected PREFIX to contain 3 elements" := by
  induction lines with
  | nil =>
    intro header pv h
    simp at h
  | cons l rest ih =>
    intro header pv h
    by_cases hb : badPrefix (parseLine l)
    · obtain ⟨⟨he, hp⟩, h3⟩ := hb
      simp only [scanLines]
      rw [if_pos he, if_pos hp, if_pos h3]
    · have hrest : ∃ l2 ∈ rest, badPrefix (parseLine l2) := by
        rcases h with ⟨l2, hmem, hb2⟩
        rcases List.mem_cons.mp hmem with rfl | hmem2
        · exact absurd hb2 hb
        · exact ⟨l2, hmem2, hb2⟩
      simp only [scanLines]
      by_cases he : isEntry (parseLine l)
      · rw [if_pos he]
        by_cases hp : (parseLine l).Words.getD 1 "" = "PREFIX"
        · rw [if_pos hp]
          have h3 : ¬ (parseLine l).Words.length ≠ 3 := fun h3 => hb ⟨⟨he, hp⟩, h3⟩
          rw [if_neg h3]
          exact ih _ _ hrest
        · rw [if_neg hp]
          exact ih _ _ hrest
      · rw [if_neg he]
        exact ih _ _ hrest

/-- With no malformed `PREFIX` entry, the scan succeeds; the resulting
`PREFIX` token is non-empty when a well-formed `PREFIX` entry occurs (or
the incoming token already was non-empty), and is unchanged when no
`PREFIX` entry occurs at all. -/
theorem scanLines_nobad (lines : List String) :
    ∀ header pv, (∀ l ∈ lines, ¬ badPrefix (parseLine l)) →
      ∃ es pv2, scanLines lines header pv = .ok (es, pv2) ∧
        (((∃ l ∈ lines, goodPrefix (parseLine l)) ∨ pv ≠ "") → pv2 ≠ "") ∧
        ((∀ l ∈ lines, ¬ isPrefixEntry (parseLine l)) → pv2 = pv) := by
  induction lines with
  | nil =>
    intro header pv _
    refine ⟨header, pv, rfl, ?_, fun _ => rfl⟩
    rintro (⟨l, hl, _⟩ | hpv)
    · simp at hl
    · exact hpv
  | cons l rest ih =>
    intro header pv h
    have hnb : ¬ badPrefix (parseLine l) := h l (List.mem_cons_self l rest)
    have hrest : ∀ l2 ∈ rest, ¬ badPrefix (parseLine l2) :=
      fun l2 hm => h l2 (List.mem_cons_of_mem l hm)
    simp only [scanLines]
    by_cases he : isEntry (parseLine l)
    · by_cases hp : (parseLine l).Words.getD 1 "" = "PREFIX"
      · have h3 : (parseLine l).Words.length = 3 := by
          by_contra h3
          exact hnb ⟨⟨he, hp⟩, h3⟩
        have hv : (parseLine l).Words.getD 2 "" ≠ "" := by
          have hm : (parseLine l).Words.getD 2 "" ∈ (parseLine l).Words := getD_mem (by omega)
          exact goFields_mem_ne l _ hm
        obtain ⟨es, pv2, hscan, hnz, _⟩ :=
          ih (header ++ [parseLine l]) ((parseLine l).Words.getD 2 "") hrest
        rw [if_pos he, if_pos hp, if_neg (by simp [h3])]
        refine ⟨es, pv2, hscan, fun _ => hnz (Or.inr hv), ?_⟩
        intro hnone
        exact absurd ⟨he, hp⟩ (hnone l (List.mem_cons_self l rest))
      · obtain ⟨es, pv2, hscan, hnz, hsame⟩ := ih (header ++ [parseLine l]) pv hrest
        rw [if_pos he, if_neg hp]
        refine ⟨es, pv2, hscan, ?_, ?_⟩
        · rintro (⟨l2, hmem, hg⟩ | hpv)
          · rcases List.mem_cons.mp hmem with rfl | hmem2
            · exact absurd hg.1.2 hp
            · exact hnz (Or.inl ⟨l2, hmem2, hg⟩)
          · exact hnz (Or.inr hpv)
        · intro hnone
          exact hsame fun l2 hm => hnone l2 (List.mem_cons_of_mem l hm)
    · obtain ⟨es, pv2, hscan, hnz, hsame⟩ := ih header pv hrest
      rw [if_neg he]
      refine ⟨es, pv2, hscan, ?_, ?_⟩
      · rintro (⟨l2, hmem, hg⟩ | hpv)
        · rcases List.mem_cons.mp hmem with rfl | hmem2
          · exact absurd hg.1.1 he
          · exact hnz (Or.inl ⟨l2, hmem2, hg⟩)
        · exact hnz (Or.inr hpv)
      · intro hnone
        exact hsame fun l2 hm => hnone l2 (List.mem_cons_of_mem l hm)

/-! ## Claim C6 -/

/-- C6 (confirmed): whenever extraction succeeds, its entry list is
exactly one parsed entry per input line whose first whitespace-separated
token is `#define` and which has at least three tokens, in input order
with no deduplication, followed by the synthetic `GO_BUILD_TAGS` entry
exactly when the environment override is non-empty. -/
theorem runExtract_entries (lines : List String) (tags : String) (es : List Define) (pv : String)
    (h : runExtract lines tags = .ok (es, pv)) :
    es = ((lines.filter (fun l => decide (isEntry (parseLine l)))).map parseLine)
      ++ (if tags ≠ "" then [tagDefine tags] else []) := by
  cases hscan : scanLines lines [] "" with
  | error e =>
    have hred : runExtract lines tags = .error e := by
      unfold runExtract
      rw [hscan]
    rw [hred] at h
    cases h
  | ok hdpv =>
    obtain ⟨header, pv0⟩ := hdpv
    have hred : runExtract lines tags =
        (if pv0 = "" then Except.error "Failed to find value of PREFIX"
         else .ok ((if tags ≠ "" then header ++ [tagDefine tags] else header), pv0)) := by
      unfold runExtract
      rw [hscan]
    rw [hred] at h
    by_cases hz : pv0 = ""
    · rw [if_pos hz] at h
      cases h
    · rw [if_neg hz] at h
      have hhdr : header = (lines.filter (fun l => decide (isEntry (parseLine l)))).map parseLine := by
        simpa using scanLines_ok_entries lines [] "" header pv0 hscan
      injection h with h1
      injection h1 with h2 _
      subst h2
      by_cases ht : tags ≠ ""
      · rw [if_pos ht, if_pos ht, hhdr]
      · rw [if_neg ht, if_neg ht, hhdr, List.append_nil]

/-- C6 (witness): a junk line is skipped, two recognized lines produce two
entries in order, and a non-empty override appends the synthetic entry
last. -/
theorem runExtract_entries_w :
    ([⟨["#define", "PREFIX", "\"/usr\""]⟩, ⟨["#define", "BINDIR", "\"/usr/bin\""]⟩,
        tagDefine "purego"] : List Define) =
      ((["junk", "#define PREFIX \"/usr\"", "#define BINDIR \"/usr/bin\""].filter
          (fun l => decide (isEntry (parseLine l)))).map parseLine)
        ++ (if ("purego" : String) ≠ "" then [tagDefine "purego"] else []) :=
  runExtract_entries ["junk", "#define PREFIX \"/usr\"", "#define BINDIR \"/usr/bin\""]
    "purego"
    [⟨["#define", "PREFIX", "\"/usr\""]⟩, ⟨["#define", "BINDIR", "\"/usr/bin\""]⟩,
      tagDefine "purego"]
    "\"/usr\"" (by decide)

/-! ## Claim C7 -/

/-- C7 (confirmed): a recognized `PREFIX` entry with a word count other
than three makes generation fail fatally; when no `PREFIX` entry occurs at
all, generation fails fatally after scanning every line; with exactly one
well-formed `PREFIX` entry and no malformed one, extraction succeeds. -/
theorem runExtract_prefix_errors (lines : List String) (tags : String) :
    ((∃ l ∈ lines, badPrefix (parseLine l)) →
      runExtract lines tags = .error "Expected PREFIX to contain 3 elements") ∧
    ((∀ l ∈ lines, ¬ isPrefixEntry (parseLine l)) →
      runExtract lines tags = .error "Failed to find value of PREFIX") ∧
    (((lines.filter (fun l => decide (goodPrefix (parseLine l)))).length = 1 ∧
        ∀ l ∈ lines, ¬ badPrefix (parseLine l)) →
      ∃ es pv, runExtract lines tags = .ok (es, pv)) := by
  refine ⟨?_, ?_, ?_⟩
  · intro h
    unfold runExtract
    rw [scanLines_bad lines [] "" h]
  · intro h
    have hnb : ∀ l ∈ lines, ¬ badPrefix (parseLine l) := fun l hm hb => h l hm hb.1
    obtain ⟨es, pv2, hscan, _, hsame⟩ := scanLines_nobad lines [] "" hnb
    have hz : pv2 = "" := hsame h
    subst hz
    have hred : runExtract lines tags = .error "Failed to find value of PREFIX" := by
      unfold runExtract
      rw [hscan]
      simp
    exact hred
  · rintro ⟨hcount, hnb⟩
    obtain ⟨es, pv2, hscan, hnz, _⟩ := scanLines_nobad lines [] "" hnb
    have hex : ∃ l ∈ lines, goodPrefix (parseLine l) := by
      have hne : lines.filter (fun l => decide (goodPrefix (parseLine l))) ≠ [] := by
        intro hnil
        rw [hnil] at hcount
        simp at hcount
      obtain ⟨x, hx⟩ := List.exists_mem_of_ne_nil _ hne
      have hx2 := List.mem_filter.mp hx
      exact ⟨x, hx2.1, by simpa using hx2.2⟩
    have hpv : pv2 ≠ "" := hnz (Or.inl hex)
    have hred : runExtract lines tags =
        (if pv2 = "" then Except.error "Failed to find value of PREFIX"
         else .ok ((if tags ≠ "" then es ++ [tagDefine tags] else es), pv2)) := by
      unfold runExtract
      rw [hscan]
    rw [hred, if_neg hpv]
    exact ⟨_, _, rfl⟩

/-- C7 (witness): the three behaviors at concrete inputs — a four-word
`PREFIX` line, an input with no `PREFIX` entry, and an input with exactly
one well-formed `PREFIX` entry. -/
theorem runExtract_prefix_errors_w :
    runExtract ["#define PREFIX a b"] "" = .error "Expected PREFIX to contain 3 elements" ∧
    runExtract ["#define BINDIR \"/usr/bin\""] "" = .error "Failed to find value of PREFIX" ∧
    ∃ es pv, runExtract ["#define PREFIX \"/usr\""] "" = .ok (es, pv) :=
  ⟨(runExtract_prefix_errors ["#define PREFIX a b"] "").1 (by decide),
   (runExtract_prefix_errors ["#define BINDIR \"/usr/bin\""] "").2.1 (by decide),
   (runExtract_prefix_errors ["#define PREFIX \"/usr\""] "").2.2 ⟨by decide, by decide⟩⟩

/-! ## Claim C8 -/

/-- C8 (counterexample): an unreadable input file — a fatal condition in
the claim's list — makes `main` print the error and return normally, so
the process exits with status zero, not the non-zero status the claim
asserts. -/
theorem runMain_exit_cex :
    runMain ⟨true, none, true, ""⟩ = .printReturn "read error" ∧
    exitCode (runMain ⟨true, none, true, ""⟩) = 0 :=
  ⟨by decide, by decide⟩

/-- C8 (amended): every generation-time fatal condition aborts generation
immediately with a diagnostic message, but only the missing/malformed
`PREFIX` conditions (routed through the fatal logger) exit with a non-zero
status; failure to create the output file, an unreadable input file, and a
template render failure print their diagnostic and exit with status
zero. -/
theorem runMain_errors (env : GenEnv) :
    (env.createOk = false →
      runMain env = .printReturn "create error" ∧ exitCode (runMain env) = 0) ∧
    (env.createOk = true → env.inputLines = none →
      runMain env = .printReturn "read error" ∧ exitCode (runMain env) = 0) ∧
    (∀ lines e, env.createOk = true → env.inputLines = some lines →
      runExtract lines env.goBuildTags = .error e →
      runMain env = .fatalExit e ∧ exitCode (runMain env) ≠ 0) ∧
    (∀ lines header pv p, env.createOk = true → env.inputLines = some lines →
      runExtract lines env.goBuildTags = .ok (header, pv) → stripOuter pv = some p →
      env.writeOk = false →
      runMain env = .printReturn "template error" ∧ exitCode (runMain env) = 0) := by
  refine ⟨?_, ?_, ?_, ?_⟩
  · intro hc
    have hm : runMain env = .printReturn "create error" := by simp [runMain, hc]
    exact ⟨hm, by rw [hm]; rfl⟩
  · intro hc hin
    have hm : runMain env = .printReturn "read error" := by simp [runMain, hc, hin]
    exact ⟨hm, by rw [hm]; rfl⟩
  · intro lines e hc hin hex
    have hm : runMain env = .fatalExit e := by simp [runMain, hc, hin, hex]
    refine ⟨hm, by rw [hm]; simp [exitCode]⟩
  · intro lines header pv p hc hin hex hstrip hw
    have hm : runMain env = .printReturn "template error" := by
      simp [runMain, hc, hin, hex, hstrip, hw]
    exact ⟨hm, by rw [hm]; rfl⟩

/-- C8 (witness): an input with no `PREFIX` entry exits fatally with a
non-zero status. -/
theorem runMain_errors_w :
    runMain ⟨true, some ["#define BINDIR \"/usr/bin\""], true, ""⟩ =
      .fatalExit "Failed to find value of PREFIX" ∧
    exitCode (runMain ⟨true, some ["#define BINDIR \"/usr/bin\""], true, ""⟩) ≠ 0 :=
  (runMain_errors ⟨true, some ["#define BINDIR \"/usr/bin\""], true, ""⟩).2.2.1
    ["#define BINDIR \"/usr/bin\""] "Failed to find value of PREFIX" rfl rfl (by decide)

/-! ## Claim C10 -/

/-- C10 (confirmed): the quote-stripping slice `prefix[1 : len(prefix)-1]`
is in bounds exactly when the `PREFIX` value token has at least two
characters; a single-character token makes the slice panic (modelled as
`none`), and end to end the generator panics on such an input instead of
reporting a diagnostic fatal error. -/
theorem stripOuter_spec :
    (∀ s : String, 2 ≤ s.length → (stripOuter s).isSome = true) ∧
    stripOuter "x" = none ∧
    runMain ⟨true, some ["#define PREFIX x"], true, ""⟩ =
      .panicked "slice bounds out of range" := by
  refine ⟨?_, by decide, by decide⟩
  intro s h
  simp [stripOuter, h]

/-- C10 (witness): a two-character token is sliced without panicking. -/
theorem stripOuter_spec_w : (stripOuter "ab").isSome = true :=
  stripOuter_spec.1 "ab" (by decide)

end Confgen

/-!
## Concrete evaluation checks

Closed evaluations of the embedded primitives.  The `path/filepath` cases
re-trace the Go standard library's documented behavior (including the
`Rel("a", "a/..") = "../."` corner), and the pipeline cases re-trace
`gen.go` by hand on small inputs, among them the scenario of the spec
(`PREFIX` constant, `BINDIR` relocation variable, `FOO` constant).
-/

section EvalChecks
open Confgen
example : goFields "  #define  PREFIX  \"/usr\" " = ["#define", "PREFIX", "\"/usr\""] := by decide
example : goClean "/a//b/./c/.." = "/a/b" := by decide
example : goClean "a/../../x" = "../x" := by decide
example : goDir "/opt/bin/apptainer" = "/opt/bin" := by decide
example : goDir "apptainer" = "." := by decide
example : goBase "/opt/bin/apptainer" = "apptainer" := by decide
example : goBase "///" = "/" := by decide
example : goRel "/usr" "/usr/bin" = .ok "bin" := by decide
example : goRel "/" "/etc/apptainer/x" = .ok "etc/apptainer/x" := by decide
example : goRel "a" "a/../../x" = .ok "../../x" := by decide
example : goRel "../a" "b" = .error "Rel: can't make b relative to ../a" := by decide
example : goRel ".." "..foo" = .error "Rel: can't make ..foo relative to .." := by decide
example : goRel ".." "../x" = .ok "x" := by decide
example : goRel "." ".." = .ok ".." := by decide
example : goRel "a" "b" = .ok "../b" := by decide
example : goRel "a/b/c" "a/x" = .ok "../../x" := by decide
example : goRel "a" "a/.." = .ok "../." := by decide
example : goRel "/usr" "usr/x" = .error "Rel: can't make usr/x relative to /usr" := by decide
example : goJoin "/opt" "bin" = "/opt/bin" := by decide
example : goJoin "" "" = "" := by decide
example : containsSub "a + APPTAINER_CONFDIR + b" "APPTAINER_CONFDIR" = true := by decide
example : containsSub "abc" "" = true := by decide
example : hasPrefix "/usr/bin" "/usr" = true := by decide
example : getPrefix "/usr" ⟨some "/opt/bin/apptainer", fun _ => false⟩ = "/opt" := by decide
example : getPrefix "/usr" ⟨some "/opt/libexec/apptainer/bin/starter-suid", fun _ => false⟩ = "/opt" := by decide
example : getPrefix "/usr" ⟨some "/opt/bin/other", fun _ => false⟩ = "/usr" := by decide
example : getPrefix "/usr" ⟨none, fun _ => false⟩ = "/usr" := by decide
example : isSuidInstall "/usr" ⟨some "/opt/bin/apptainer", fun _ => true⟩ = 1 := by decide
example : isSuidInstall "/usr" ⟨some "/opt/bin/apptainer", fun _ => false⟩ = 0 := by decide
example : relocatePath "/usr" ⟨some "/opt/bin/apptainer", fun _ => false⟩ "/usr/bin" = .ok "/opt/bin" := by decide
example : relocatePath "/usr" ⟨some "/opt/bin/apptainer", fun _ => false⟩ "/etc/apptainer/conf" = .ok "/opt/etc/apptainer/conf" := by decide
example : relocatePath "/usr" ⟨some "/opt/bin/apptainer", fun _ => true⟩ "/usr/bin" = .error "Relocation not allowed with starter-suid" := by decide
example : relocatePath "/usr" ⟨some "/opt/bin/apptainer", fun _ => true⟩ "/foo" = .ok "/foo" := by decide
example : relocatePath "/usr" ⟨some "/usr/bin/apptainer", fun _ => true⟩ "/usr/bin" = .ok "/usr/bin" := by decide
example : relocatePath "" ⟨some "/opt/bin/apptainer", fun _ => true⟩ "/usr/bin" = .ok "/usr/bin" := by decide
example : relocatePath "a" ⟨some "/opt/bin/apptainer", fun _ => false⟩ "a/../../x" = .ok "/x" := by decide
example : relocatePath ".." ⟨some "/opt/bin/apptainer", fun _ => false⟩ "..foo" = .error "Rel: can't make ..foo relative to .." := by decide
example : (parseLine "#define BINDIR \"/usr/bin\"").Words = ["#define", "BINDIR", "\"/usr/bin\""] := by decide
example : Define.WriteLine ⟨["#define", "BINDIR", "\"/usr/bin\""]⟩ = "var BINDIR = relocatePath(\"/usr/bin\")" := by decide
example : Define.WriteLine ⟨["#define", "APPTAINER_SUID_INSTALL", "1"]⟩ = "var APPTAINER_SUID_INSTALL = isSuidInstall()" := by decide
example : Define.WriteLine ⟨["#define", "FOO", "\"/usr/local\""]⟩ = "const FOO = \"/usr/local\"" := by decide
example : Define.WriteLine ⟨["#define", "DERIVED", "APPTAINER_CONFDIR", "+x", "\"/d\""]⟩ = "var DERIVED = APPTAINER_CONFDIR + +x + \"/d\"" := by decide
example : runExtract ["junk", "#define PREFIX \"/usr\"", "", "#define BINDIR \"/usr/bin\""] "" = .ok ([⟨["#define", "PREFIX", "\"/usr\""]⟩, ⟨["#define", "BINDIR", "\"/usr/bin\""]⟩], "\"/usr\"") := by decide
example : runExtract ["#define BINDIR \"/usr/bin\""] "" = .error "Failed to find value of PREFIX" := by decide
example : runExtract ["#define PREFIX \"/a\" \"/b\""] "" = .error "Expected PREFIX to contain 3 elements" := by decide
example : runExtract ["#define PREFIX \"/usr\""] "tag1 tag2" = .ok ([⟨["#define", "PREFIX", "\"/usr\""]⟩, ⟨["#define", "GO_BUILD_TAGS", "`tag1 tag2`"]⟩], "\"/usr\"") := by decide
example : stripOuter "\"/usr\"" = some "/usr" := by decide
example : stripOuter "x" = none := by decide
example : runMain ⟨true, some ["#define PREFIX x"], true, ""⟩ = .panicked "slice bounds out of range" := by decide
example : runMain ⟨true, some ["#define PREFIX \"/usr\"", "#define BINDIR \"/usr/bin\"", "#define FOO \"/usr/local\""], true, ""⟩ =
    .success "/usr" ["const PREFIX = \"/usr\"", "var BINDIR = relocatePath(\"/usr/bin\")", "const FOO = \"/usr/local\""] := by decide
end EvalChecks
